import Mathlib

/-!
Shallow embedding of `src/dataset_check.py` (hf-data-check), a script that
samples image/caption pairs from streamed datasets and writes a few examples
per dataset to disk.  Python values appearing in records are modelled by the
inductive `Value`; a record (Python dict, insertion ordered) is an association
list; the effectful parts (image decoding, file writes, the streaming source,
the RNG behind `random.sample`) are parameterised by explicit environments so
that every execution path of the script is a value of the model.
-/

set_option autoImplicit false

namespace DatasetCheck

/-- A Python value as it can occur in a dataset record: a string, raw bytes
(modelled as a list of byte values), a list, a dict, an integer, or `None`. -/
inductive Value where
  | vStr (s : String)
  | vBytes (b : List Nat)
  | vList (l : List Value)
  | vDict (d : List (String × Value))
  | vInt (n : Int)
  | vNone

mutual

/-- Model of Python `repr` for the values above (used by `str` on containers). -/
def pyRepr : Value → String
  | .vStr s => "\x27" ++ s ++ "\x27"
  | .vBytes b => "b\x27" ++ String.intercalate " " (b.map toString) ++ "\x27"
  | .vList l => "[" ++ String.intercalate ", " (pyReprListAux l) ++ "]"
  | .vDict d => "\x7b" ++ String.intercalate ", " (pyReprDictAux d) ++ "\x7d"
  | .vInt n => toString n
  | .vNone => "None"

/-- Python `repr` of each element of a Python list. -/
def pyReprListAux : List Value → List String
  | [] => []
  | v :: vs => pyRepr v :: pyReprListAux vs

/-- Python `repr` of each entry of a Python dict. -/
def pyReprDictAux : List (String × Value) → List String
  | [] => []
  | (k, v) :: kvs => ("\x27" ++ k ++ "\x27: " ++ pyRepr v) :: pyReprDictAux kvs

end

/-- Model of Python `str` applied to a `Value`: the string itself for `str`,
otherwise the `repr` form (as for list, dict, bytes, int, None). -/
def pyStr : Value → String
  | .vStr s => s
  | v => pyRepr v

/-- A dataset record: a field-name-to-value mapping, insertion ordered. -/
abbrev Record := List (String × Value)

/-- Model of Python `field in exm` for a dict modelled as an assoc list. -/
def containsKey (exm : Record) (field : String) : Bool :=
  exm.any (fun kv => kv.1 == field)

/-- Model of Python `exm[field]` (first entry with the key; dict keys are
unique, so this is the dict lookup). -/
def getField (exm : Record) (field : String) : Option Value :=
  exm.lookup field

/-- The fixed candidate image field names, in source order
(`possible_image_fields`, dataset_check.py line 90). -/
def possible_image_fields : List String :=
  ["image", "img", "images", "image_data", "photo"]

/-- The fixed candidate text field names, in source order
(`possible_text_fields`, dataset_check.py line 125). -/
def possible_text_fields : List String :=
  ["text", "caption", "captions", "description", "descriptions", "title"]

/-- Keys excluded from the fallback image scan (dataset_check.py line 102). -/
def excluded_fallback_keys : List String := ["text", "caption", "label"]

/-- The candidate-name loop shared by image detection (lines 93-97) and text
detection (lines 128-132): walk the candidate names in order, and return the
first one present in the record together with its value. -/
def findCandidateField (exm : Record) : List String → Option (String × Value)
  | [] => none
  | f :: rest =>
    if containsKey exm f then
      match getField exm f with
      | some v => some (f, v)
      | none => none
    else findCandidateField exm rest

/-- Model of `isinstance(value, (bytes, dict))`: the fallback scan accepts raw bytes or
a nested container (dict). -/
def isImageLike : Value → Bool
  | .vBytes _ => true
  | .vDict _ => true
  | _ => false

/-- The fallback scan (lines 100-105): walk the record entries in order and
take the first whose value is bytes-like or a dict and whose key is not one of
the excluded keys. -/
def fallbackImageScan : Record → Option (String × Value)
  | [] => none
  | kv :: rest =>
    if isImageLike kv.2 && !(excluded_fallback_keys.contains kv.1) then some kv
    else fallbackImageScan rest

/-- Image field detection as `save_dataset_examples` performs it
(lines 89-105): candidates first, fallback scan only if none matched. -/
def findImageField (exm : Record) : Option (String × Value) :=
  match findCandidateField exm possible_image_fields with
  | some r => some r
  | none => fallbackImageScan exm

/-- Text field detection (lines 121-132). -/
def findTextField (exm : Record) : Option (String × Value) :=
  findCandidateField exm possible_text_fields

/-- Caption normalization (lines 134-145): a list value is rendered one
element per line as `[idx] item`; a string is used as-is; any other value is
coerced with `str`; a missing text field yields the literal `No caption`. -/
def captionOfText : Option Value → String
  | some (.vList l) =>
      String.intercalate "\n"
        (l.enum.map (fun p => "[" ++ toString p.1 ++ "] " ++ pyStr p.2))
  | some (.vStr s) => s
  | some v => pyStr v
  | none => "No caption"

/-- The effect environment of one record save: whether `Image.open` succeeds on
given bytes, whether `image.save` succeeds, whether the caption file write
succeeds.  `False` models the corresponding call raising an exception, which
the per-record `try` (lines 84-161) turns into a logged skip. -/
structure PersistEnv where
  decodeOk : List Nat → Bool
  imageSaveOk : Bool
  captionWriteOk : Bool

/-- The environment of a run in which decoding and both file writes succeed. -/
def allOkEnv : PersistEnv := ⟨fun _ => true, true, true⟩

/-- A file creation performed by the save loop: `image_<n>.jpg` or
`caption_<n>.txt` with its content, inside the sample directory. -/
inductive WriteEvent where
  | imageFile (n : Nat)
  | captionFile (n : Nat) (content : String)
deriving DecidableEq

/-- How the processing of one selected record ends. -/
inductive POutcome where
  /-- Both files written, `saved_count` incremented (lines 147-157). -/
  | saved
  /-- No image field found: warning, `continue` (lines 107-109). -/
  | noImageField
  /-- Image value neither a dict with a `bytes` entry nor raw bytes:
  warning, `continue` (lines 116-118). -/
  | unsupportedFormat
  /-- An exception escaped to the per-record handler (lines 159-161) before
  any file was written: a non-bytes `bytes` entry fed to `BytesIO`, or
  `Image.open` failing to decode. -/
  | decodeException
  /-- The `image.save` call raised; caption write never reached (lines 148-149). -/
  | imageSaveException
  /-- Caption file write raised, after the image file was written
  (lines 152-154). -/
  | captionWriteException
deriving DecidableEq

/-- Result of processing one selected record: outcome plus file writes, in
the order they were performed. -/
structure PersistResult where
  outcome : POutcome
  writes : List WriteEvent
deriving DecidableEq

/-- The tail of the record-processing body once image bytes are in hand
(decode at lines 112-115, text handling 120-145, writes 147-154). -/
def persistDecoded (env : PersistEnv) (exm : Record) (i : Nat) (b : List Nat) :
    PersistResult :=
  if env.decodeOk b then
    let caption := captionOfText ((findTextField exm).map Prod.snd)
    if env.imageSaveOk then
      if env.captionWriteOk then
        ⟨.saved, [.imageFile (i + 1), .captionFile (i + 1) caption]⟩
      else
        ⟨.captionWriteException, [.imageFile (i + 1)]⟩
    else
      ⟨.imageSaveException, []⟩
  else
    ⟨.decodeException, []⟩

/-- One iteration of the save loop (lines 84-161) on record `exm` at loop
index `i`: find the image field, extract its bytes, decode, normalize the
caption, write `image_<i+1>.jpg` then `caption_<i+1>.txt`. -/
def persist (env : PersistEnv) (exm : Record) (i : Nat) : PersistResult :=
  match findImageField exm with
  | none => ⟨.noImageField, []⟩
  | some (_, imageData) =>
    match imageData with
    | .vDict d =>
      if containsKey d "bytes" then
        match getField d "bytes" with
        | some (.vBytes b) => persistDecoded env exm i b
        | _ => ⟨.decodeException, []⟩
      else ⟨.unsupportedFormat, []⟩
    | .vBytes b => persistDecoded env exm i b
    | _ => ⟨.unsupportedFormat, []⟩

/-- The save loop over the selected records (lines 82-161), started at loop
index `i`: returns `saved_count` and the file writes in order. -/
def saveSelected (envs : Nat → PersistEnv) : List Record → Nat → Nat × List WriteEvent
  | [], _ => (0, [])
  | exm :: rest, i =>
    let res := persist (envs i) exm i
    let tail := saveSelected envs rest (i + 1)
    ((if res.outcome = .saved then 1 else 0) + tail.1, res.writes ++ tail.2)

/-- Model of `random.sample(samples, k)` (line 78): the RNG hands back a list
of positions and the sample is the records at those positions. -/
def select (records : List Record) (idxs : List Nat) : List Record :=
  idxs.filterMap (fun i => records.get? i)

/-- The guarantee `random.sample` gives about the positions it picks when
`k ≤ records.length`: `k` pairwise distinct valid positions. -/
def ValidSample (records : List Record) (k : Nat) (idxs : List Nat) : Prop :=
  idxs.Nodup ∧ idxs.length = k ∧ ∀ i ∈ idxs, i < records.length

/-- One pull from the streaming iterator: a record, or a raised exception
(handled at lines 66-68); iterator exhaustion is the end of the list. -/
inductive FetchResult where
  | ok (r : Record)
  | fetchError

/-- Log levels used by the script. -/
inductive LogLevel where
  | debug
  | info
  | warning
  | error
  | success
deriving DecidableEq

/-- One log call, with its level and (abridged) message. -/
structure LogEntry where
  level : LogLevel
  msg : String
deriving DecidableEq

/-- The sample-collection loop (lines 56-68): `for i in range(total)` pulls
one item per iteration from the stream at loop index `i`.  A successful pull
is buffered (with a debug log every 20th index); exhaustion logs a warning
and breaks; a per-record exception logs an error and continues, still
consuming the loop iteration. -/
def collectSamples : List FetchResult → Nat → Nat → List Record × List LogEntry
  | _, _, 0 => ([], [])
  | [], _, _ + 1 => ([], [⟨.warning, "No more samples available."⟩])
  | .ok r :: rest, i, n + 1 =>
    let dbg : List LogEntry :=
      if i % 20 = 0 then [⟨.debug, "Loaded samples..."⟩] else []
    let (s, logs) := collectSamples rest (i + 1) n
    (r :: s, dbg ++ logs)
  | .fetchError :: rest, i, n + 1 =>
    let (s, logs) := collectSamples rest (i + 1) n
    (s, ⟨.error, "Error processing sample"⟩ :: logs)

/-- Outcome of one `load_dataset` call: a stream, a `ValueError` (the class
raised when the requested split does not exist), or any other exception. -/
inductive LoadResult where
  | ok (stream : List FetchResult)
  | valueError
  | otherError

/-- How the nested `try` blocks at lines 37-51 resolve. -/
inductive LoadPhase where
  /-- A stream was obtained; the flag records whether the default-split
  fallback was used (and its warning logged, line 45). -/
  | useStream (stream : List FetchResult) (usedFallback : Bool)
  /-- The fallback `load_dataset` call itself raised: caught by the inner
  generic handler, `Failed to load dataset` error, return 0 (lines 46-48). -/
  | failedFallback
  /-- The first `load_dataset` call raised something other than `ValueError`:
  caught by the outer handler, `Error occurred while loading dataset` error,
  return 0 (lines 49-51). -/
  | failedOuter

/-- Resolution of the dataset-loading block: try the `train` split; on
`ValueError` only, retry with the default split; any other first-call failure
falls through to the outer handler. -/
def loadPhase : LoadResult → LoadResult → LoadPhase
  | .ok s, _ => .useStream s false
  | .valueError, .ok s => .useStream s true
  | .valueError, _ => .failedFallback
  | .otherError, _ => .failedOuter

/-- Everything outside the program that one `save_dataset_examples` call
observes: the two `load_dataset` outcomes, the positions `random.sample`
picks, and the per-record effect environments of the save loop. -/
structure RunEnv where
  trainLoad : LoadResult
  defaultLoad : LoadResult
  sampleIdxs : List Nat
  persistEnvs : Nat → PersistEnv

/-- What one `save_dataset_examples` call produced: its return value
(`saved_count`, or 0 on failure), the log entries, the file writes. -/
structure RunResult where
  savedCount : Nat
  logs : List LogEntry
  writes : List WriteEvent
deriving DecidableEq

/-- Model of `save_dataset_examples(dataset_name, sample_size, total_samples)`
(lines 18-164), with its interactions with the outside world supplied by
`env`.  Folder naming and creation (lines 28-33) have no bearing on any
claim and are elided from the result. -/
def save_dataset_examples (env : RunEnv) (sample_size total_samples : Nat) :
    RunResult :=
  match loadPhase env.trainLoad env.defaultLoad with
  | .failedFallback => ⟨0, [⟨.error, "Failed to load dataset"⟩], []⟩
  | .failedOuter => ⟨0, [⟨.error, "Error occurred while loading dataset"⟩], []⟩
  | .useStream stream usedFallback =>
    let warnLogs : List LogEntry :=
      if usedFallback then
        [⟨.warning, "train split not found, using default split"⟩]
      else []
    let (samples, clogs) := collectSamples stream 0 total_samples
    let headLogs := warnLogs ++ clogs ++ [⟨.success, "Successfully loaded samples"⟩]
    if samples.length = 0 then
      ⟨0, headLogs ++ [⟨.error, "No samples available."⟩], []⟩
    else
      let selected := select samples (env.sampleIdxs.take (min sample_size samples.length))
      let (saved, ws) := saveSelected env.persistEnvs selected 0
      ⟨saved, headLogs ++ [⟨.success, "Saved images and captions"⟩], ws⟩

/-- The hardcoded dataset list of `process_all_datasets` (lines 178-186). -/
def datasets_list : List String :=
  ["dandelin/redcaps", "dandelin/cc12m", "dandelin/wit", "dandelin/vg",
   "dandelin/sbu", "dandelin/cocokt", "dandelin/cc3m"]

/-- What a whole driver run produced: the driver-level logs, all file
writes, the datasets actually processed (in order), and the final
`total_success` tally. -/
structure DriverResult where
  logs : List LogEntry
  writes : List WriteEvent
  attempted : List String
  totalSuccess : Nat
deriving DecidableEq

/-- Model of `process_all_datasets()` (lines 166-200): abort with an error log when
the credential is the empty string; otherwise process every dataset in
`datasets_list` with the default arguments `sample_size=10`,
`total_samples=100`, counting the datasets whose `saved_count` is positive. -/
def process_all_datasets (hf_api_key : String) (envs : String → RunEnv) :
    DriverResult :=
  if hf_api_key = "" then
    ⟨[⟨.error, "Hugging Face API key not set. Please check config.py file."⟩],
     [], [], 0⟩
  else
    let results := datasets_list.map
      (fun name => (name, save_dataset_examples (envs name) 10 100))
    { logs := results.flatMap (fun p =>
        ⟨.info, "Starting to process dataset"⟩ :: p.2.logs ++
          [if 0 < p.2.savedCount then ⟨.success, "Completed processing dataset"⟩
           else ⟨.error, "Failed to process dataset"⟩]) ++
        [⟨.success, "Successfully processed datasets"⟩]
      writes := results.flatMap (fun p => p.2.writes)
      attempted := datasets_list
      totalSuccess := (results.filter (fun p => 0 < p.2.savedCount)).length }

/-- The content of the first caption file in a list of write events, if any. -/
def writtenCaption : List WriteEvent → Option String
  | [] => none
  | .captionFile _ c :: _ => some c
  | .imageFile _ :: rest => writtenCaption rest

/-! ### Helper lemmas -/

theorem containsKey_iff_lookup_isSome (exm : Record) (f : String) :
    containsKey exm f = true ↔ (getField exm f).isSome := by
  induction exm with
  | nil => simp [containsKey, getField]
  | cons kv rest ih =>
    by_cases h : kv.1 = f
    · simp [containsKey, getField, List.lookup, h]
    · simp only [containsKey, List.any_cons, getField, List.lookup] at *
      have h1 : (kv.1 == f) = false := by simp [h]
      have h2 : (f == kv.1) = false := by simp [Ne.symm h]
      simp [h1, h2, ih]

theorem findCandidateField_eq_none (exm : Record) (cands : List String)
    (h : ∀ f ∈ cands, containsKey exm f = false) :
    findCandidateField exm cands = none := by
  induction cands with
  | nil => rfl
  | cons f rest ih =>
    have hf : containsKey exm f = false := h f (by simp)
    simp only [findCandidateField, hf, Bool.false_eq_true, if_false]
    exact ih (fun g hg => h g (by simp [hg]))

theorem findTextField_eq_none (exm : Record)
    (h : ∀ f ∈ possible_text_fields, containsKey exm f = false) :
    findTextField exm = none :=
  findCandidateField_eq_none exm possible_text_fields h

theorem fallbackImageScan_eq_none (exm : Record)
    (h : ∀ kv ∈ exm,
      (isImageLike kv.2 && !(excluded_fallback_keys.contains kv.1)) = false) :
    fallbackImageScan exm = none := by
  induction exm with
  | nil => rfl
  | cons kv rest ih =>
    have hkv := h kv (by simp)
    simp only [fallbackImageScan, hkv, Bool.false_eq_true, if_false]
    exact ih (fun kv hk => h kv (by simp [hk]))

theorem findImageField_eq_none (exm : Record)
    (h1 : ∀ f ∈ possible_image_fields, containsKey exm f = false)
    (h2 : ∀ kv ∈ exm,
      (isImageLike kv.2 && !(excluded_fallback_keys.contains kv.1)) = false) :
    findImageField exm = none := by
  unfold findImageField
  rw [findCandidateField_eq_none exm possible_image_fields h1]
  exact fallbackImageScan_eq_none exm h2

theorem writtenCaption_persistDecoded (env : PersistEnv) (exm : Record)
    (i : Nat) (b : List Nat) (c : String)
    (hc : writtenCaption (persistDecoded env exm i b).writes = some c) :
    c = captionOfText ((findTextField exm).map Prod.snd) := by
  unfold persistDecoded at hc
  split at hc
  · split at hc
    · split at hc
      · simp [writtenCaption] at hc
        exact hc.symm
      · simp [writtenCaption] at hc
    · simp [writtenCaption] at hc
  · simp [writtenCaption] at hc

theorem writtenCaption_persist (env : PersistEnv) (exm : Record) (i : Nat)
    (c : String)
    (hc : writtenCaption (persist env exm i).writes = some c) :
    c = captionOfText ((findTextField exm).map Prod.snd) := by
  unfold persist at hc
  rcases hfi : findImageField exm with _ | ⟨k, v⟩
  · rw [hfi] at hc
    simp [writtenCaption] at hc
  · rw [hfi] at hc
    cases v with
    | vDict d =>
      simp only at hc
      by_cases hbk : containsKey d "bytes" = true
      · rw [if_pos hbk] at hc
        rcases hgb : getField d "bytes" with _ | bv
        · rw [hgb] at hc
          simp [writtenCaption] at hc
        · rw [hgb] at hc
          cases bv <;> simp only [writtenCaption] at hc <;>
            first
              | exact writtenCaption_persistDecoded env exm i _ c hc
              | simp [writtenCaption] at hc
      · rw [if_neg hbk] at hc
        simp [writtenCaption] at hc
    | vBytes b => exact writtenCaption_persistDecoded env exm i b c hc
    | vStr s => simp [writtenCaption] at hc
    | vList l => simp [writtenCaption] at hc
    | vInt n => simp [writtenCaption] at hc
    | vNone => simp [writtenCaption] at hc

/-! ### Claims -/

/-- C2: whenever `persist` writes a caption file, a detected list-valued text
field is rendered as `[position] element` lines (0-indexed, original order)
joined by newlines — in particular `caption = [a, b]` yields the file content
`[0] a` newline `[1] b`; a string-valued text field is written as-is; any
other detected value is written as its `str` coercion. -/
theorem persist_caption_content (env : PersistEnv) (exm : Record) (i : Nat)
    (hsome : (writtenCaption (persist env exm i).writes).isSome = true) :
    (∀ f l, findTextField exm = some (f, .vList l) →
      writtenCaption (persist env exm i).writes =
        some (String.intercalate "\n"
          (l.enum.map (fun p => "[" ++ toString p.1 ++ "] " ++ pyStr p.2))))
    ∧ (∀ f s, findTextField exm = some (f, .vStr s) →
      writtenCaption (persist env exm i).writes = some s)
    ∧ (∀ f v, findTextField exm = some (f, v) →
      (∀ l, v ≠ .vList l) → (∀ s, v ≠ .vStr s) →
      writtenCaption (persist env exm i).writes = some (pyStr v))
    ∧ (findTextField exm = some ("caption", .vList [.vStr "a", .vStr "b"]) →
      writtenCaption (persist env exm i).writes = some "[0] a\n[1] b") := by
  rcases Option.isSome_iff_exists.mp hsome with ⟨c, hc⟩
  have hkey : writtenCaption (persist env exm i).writes =
      some (captionOfText ((findTextField exm).map Prod.snd)) := by
    rw [hc, writtenCaption_persist env exm i c hc]
  refine ⟨?_, ?_, ?_, ?_⟩
  · intro f l hf
    rw [hkey, hf]
    rfl
  · intro f s hf
    rw [hkey, hf]
    rfl
  · intro f v hf hl hs
    rw [hkey, hf]
    cases v with
    | vList l => exact absurd rfl (hl l)
    | vStr s => exact absurd rfl (hs s)
    | vBytes b => rfl
    | vDict d => rfl
    | vInt n => rfl
    | vNone => rfl
  · intro hf
    rw [hkey, hf]
    rfl

/-- Witness for C2 at a concrete record with `caption = [a, b]`. -/
theorem persist_caption_content_witness :
    writtenCaption (persist allOkEnv
      [("image", Value.vBytes [0]),
       ("caption", Value.vList [Value.vStr "a", Value.vStr "b"])] 0).writes =
      some "[0] a\n[1] b" :=
  (persist_caption_content allOkEnv
    [("image", Value.vBytes [0]),
     ("caption", Value.vList [Value.vStr "a", Value.vStr "b"])] 0
    (by decide)).2.2.2 (by rfl)

/-- C4: on a record where no candidate image field name is present and no
non-excluded entry is bytes-like or a container, `persist` fails with the
no-image-field outcome and writes no file at all. -/
theorem persist_no_image_field (env : PersistEnv) (exm : Record) (i : Nat)
    (h1 : ∀ f ∈ possible_image_fields, containsKey exm f = false)
    (h2 : ∀ kv ∈ exm,
      (isImageLike kv.2 && !(excluded_fallback_keys.contains kv.1)) = false) :
    (persist env exm i).outcome = .noImageField ∧
      (persist env exm i).writes = [] := by
  have h := findImageField_eq_none exm h1 h2
  unfold persist
  rw [h]
  exact ⟨rfl, rfl⟩

/-- Witness for C4 at a record holding only a text field. -/
theorem persist_no_image_field_witness :
    (persist allOkEnv [("text", Value.vStr "hi")] 0).outcome =
        POutcome.noImageField ∧
      (persist allOkEnv [("text", Value.vStr "hi")] 0).writes = [] :=
  persist_no_image_field allOkEnv [("text", Value.vStr "hi")] 0
    (by decide) (by decide)

/-- C5: on a record where none of the candidate text field names is present,
any caption file `persist` writes has content exactly `No caption`. -/
theorem persist_missing_text_defaults (env : PersistEnv) (exm : Record)
    (i : Nat)
    (htext : ∀ f ∈ possible_text_fields, containsKey exm f = false)
    (hsome : (writtenCaption (persist env exm i).writes).isSome = true) :
    writtenCaption (persist env exm i).writes = some "No caption" := by
  rcases Option.isSome_iff_exists.mp hsome with ⟨c, hc⟩
  have h := writtenCaption_persist env exm i c hc
  rw [hc, h, findTextField_eq_none exm htext]
  rfl

/-- Witness for C5 at a record holding only raw image bytes. -/
theorem persist_missing_text_defaults_witness :
    writtenCaption (persist allOkEnv [("image", Value.vBytes [0])] 0).writes =
      some "No caption" :=
  persist_missing_text_defaults allOkEnv [("image", Value.vBytes [0])] 0
    (by decide) (by decide)

/-- The image-field detection policy exactly as the spec words it: the first
present name among the fixed candidates, and only when none is present the
first record entry with a bytes-like or container value under a non-excluded
key. -/
def findImageFieldSpec (exm : Record) : Option (String × Value) :=
  match possible_image_fields.find? (fun f => containsKey exm f) with
  | some f => (getField exm f).map (fun v => (f, v))
  | none =>
    exm.find? (fun kv =>
      isImageLike kv.2 && !(excluded_fallback_keys.contains kv.1))

theorem findCandidateField_eq_find (exm : Record) (cands : List String) :
    findCandidateField exm cands =
      match cands.find? (fun f => containsKey exm f) with
      | some f => (getField exm f).map (fun v => (f, v))
      | none => none := by
  induction cands with
  | nil => rfl
  | cons f rest ih =>
    by_cases h : containsKey exm f = true
    · rw [List.find?_cons_of_pos _ h]
      simp only [findCandidateField, h, if_true]
      cases hg : getField exm f <;> simp [hg]
    · rw [List.find?_cons_of_neg _ (by simpa using h)]
      simp only [findCandidateField, h, if_false]
      exact ih

theorem fallbackImageScan_eq_find (exm : Record) :
    fallbackImageScan exm =
      exm.find? (fun kv =>
        isImageLike kv.2 && !(excluded_fallback_keys.contains kv.1)) := by
  induction exm with
  | nil => rfl
  | cons kv rest ih =>
    by_cases h :
        (isImageLike kv.2 && !(excluded_fallback_keys.contains kv.1)) = true
    · simp only [fallbackImageScan, List.find?_cons]
      rw [h]
      simp
    · have h' :
          (isImageLike kv.2 && !(excluded_fallback_keys.contains kv.1)) =
            false := Bool.eq_false_iff.mpr h
      simp only [fallbackImageScan, List.find?_cons]
      rw [h']
      simpa using ih

/-- C3: image-field detection in `persist` is ordered and first-match-wins —
it agrees with the spec-worded policy on every record: candidate names
`image, img, images, image_data, photo` in that order, then, only if none is
present, the first entry whose value is bytes-like or a container and whose
key is not `text`, `caption`, or `label`. -/
theorem findImageField_matches_spec (exm : Record) :
    findImageField exm = findImageFieldSpec exm := by
  unfold findImageField findImageFieldSpec
  rw [findCandidateField_eq_find exm possible_image_fields]
  cases h : possible_image_fields.find? (fun f => containsKey exm f) with
  | none => exact fallbackImageScan_eq_find exm
  | some f =>
    have hck : containsKey exm f = true := List.find?_some h
    rcases Option.isSome_iff_exists.mp
      ((containsKey_iff_lookup_isSome exm f).mp hck) with ⟨v, hv⟩
    simp [hv]

/-- The image bytes the record-processing body hands to `Image.open`
(lines 112-115), when it reaches that point: the `bytes` entry of a detected
dict value, or a detected raw-bytes value. -/
def imageBytesOf (exm : Record) : Option (List Nat) :=
  match findImageField exm with
  | some (_, .vDict d) =>
    if containsKey d "bytes" then
      match getField d "bytes" with
      | some (.vBytes b) => some b
      | _ => none
    else none
  | some (_, .vBytes b) => some b
  | _ => none

theorem persist_of_imageBytes (env : PersistEnv) (exm : Record) (i : Nat)
    (b : List Nat) (hb : imageBytesOf exm = some b) :
    persist env exm i = persistDecoded env exm i b := by
  unfold imageBytesOf at hb
  unfold persist
  rcases hfi : findImageField exm with _ | ⟨k, v⟩ <;> rw [hfi] at hb
  · exact absurd hb (by simp)
  · cases v with
    | vDict d =>
      simp only at hb ⊢
      by_cases hbk : containsKey d "bytes" = true
      · rw [if_pos hbk] at hb ⊢
        rcases hgb : getField d "bytes" with _ | bv <;> rw [hgb] at hb
        · exact absurd hb (by simp)
        · cases bv <;> simp only [Option.some.injEq] at hb <;>
            first
              | (rw [hb])
              | exact absurd hb (by simp)
      · rw [if_neg hbk] at hb
        exact absurd hb (by simp)
    | vBytes b2 =>
      simp only [Option.some.injEq] at hb
      rw [hb]
    | vStr s => exact absurd hb (by simp)
    | vList l => exact absurd hb (by simp)
    | vInt n => exact absurd hb (by simp)
    | vNone => exact absurd hb (by simp)

/-- C9: persistence is not atomic — with a decodable image, a succeeding
image save, and a failing caption write, `persist` ends in the
caption-write-failure outcome (the record is not counted as saved), yet the
write trace still holds the image file, which is never removed; and on the
fully succeeding path the image file is written before the caption file. -/
theorem persist_caption_failure_keeps_image (env : PersistEnv) (exm : Record)
    (i : Nat) (b : List Nat)
    (hb : imageBytesOf exm = some b)
    (hdec : env.decodeOk b = true)
    (himg : env.imageSaveOk = true)
    (hcap : env.captionWriteOk = false) :
    (persist env exm i).outcome = .captionWriteException ∧
      (persist env exm i).outcome ≠ .saved ∧
      (persist env exm i).writes = [.imageFile (i + 1)] ∧
      ∀ env2 : PersistEnv, env2.decodeOk b = true → env2.imageSaveOk = true →
        env2.captionWriteOk = true →
        (persist env2 exm i).writes =
          [.imageFile (i + 1),
           .captionFile (i + 1)
             (captionOfText ((findTextField exm).map Prod.snd))] := by
  rw [persist_of_imageBytes env exm i b hb]
  unfold persistDecoded
  rw [hdec, himg, hcap]
  refine ⟨rfl, by simp, rfl, ?_⟩
  intro env2 hdec2 himg2 hcap2
  rw [persist_of_imageBytes env2 exm i b hb]
  unfold persistDecoded
  rw [hdec2, himg2, hcap2]
  rfl

/-- Witness for C9: caption write fails on a record with raw image bytes. -/
theorem persist_caption_failure_keeps_image_witness :
    (persist ⟨fun _ => true, true, false⟩ [("image", Value.vBytes [0])]
        0).outcome = POutcome.captionWriteException ∧
      (persist ⟨fun _ => true, true, false⟩ [("image", Value.vBytes [0])]
        0).outcome ≠ POutcome.saved ∧
      (persist ⟨fun _ => true, true, false⟩ [("image", Value.vBytes [0])]
        0).writes = [WriteEvent.imageFile 1] ∧
      ∀ env2 : PersistEnv, env2.decodeOk [0] = true →
        env2.imageSaveOk = true → env2.captionWriteOk = true →
        (persist env2 [("image", Value.vBytes [0])] 0).writes =
          [WriteEvent.imageFile 1,
           WriteEvent.captionFile 1
             (captionOfText
               ((findTextField [("image", Value.vBytes [0])]).map
                 Prod.snd))] :=
  persist_caption_failure_keeps_image ⟨fun _ => true, true, false⟩
    [("image", Value.vBytes [0])] 0 [0] (by rfl) (by rfl) (by rfl) (by rfl)

theorem persist_writes_shape (env : PersistEnv) (exm : Record) (i : Nat) :
    (persist env exm i).writes = [] ∨
      (persist env exm i).writes = [.imageFile (i + 1)] ∨
      ∃ c, (persist env exm i).writes =
        [.imageFile (i + 1), .captionFile (i + 1) c] := by
  unfold persist persistDecoded
  repeat' split
  all_goals
    first
      | exact Or.inl rfl
      | exact Or.inr (Or.inl rfl)
      | exact Or.inr (Or.inr ⟨_, rfl⟩)

theorem saveSelected_caption_after_image (envs : Nat → PersistEnv) :
    ∀ (sel : List Record) (i0 n : Nat) (c : String),
      WriteEvent.captionFile n c ∈ (saveSelected envs sel i0).2 →
      ∃ l1 l2, (saveSelected envs sel i0).2 =
        l1 ++ WriteEvent.imageFile n :: WriteEvent.captionFile n c :: l2 := by
  intro sel
  induction sel with
  | nil =>
    intro i0 n c h
    simp [saveSelected] at h
  | cons exm rest ih =>
    intro i0 n c h
    have hunf : (saveSelected envs (exm :: rest) i0).2 =
        (persist (envs i0) exm i0).writes ++
          (saveSelected envs rest (i0 + 1)).2 := rfl
    rw [hunf] at h
    rcases List.mem_append.mp h with h1 | h2
    · rcases persist_writes_shape (envs i0) exm i0 with hs | hs | ⟨c2, hs⟩ <;>
        rw [hs] at h1
      · simp at h1
      · simp at h1
      · have : n = i0 + 1 ∧ c = c2 := by
          rcases List.mem_cons.mp h1 with he | he
          · exact absurd he (by simp)
          · rcases List.mem_cons.mp he with he2 | he2
            · exact ⟨(WriteEvent.captionFile.injEq _ _ _ _).mp he2 |>.1,
                (WriteEvent.captionFile.injEq _ _ _ _).mp he2 |>.2⟩
            · exact absurd he2 (by simp)
        rcases this with ⟨hn, hc⟩
        refine ⟨[], (saveSelected envs rest (i0 + 1)).2, ?_⟩
        rw [hunf, hs, hn, hc]
        rfl
    · rcases ih (i0 + 1) n c h2 with ⟨l1, l2, heq⟩
      refine ⟨(persist (envs i0) exm i0).writes ++ l1, l2, ?_⟩
      rw [hunf, heq]
      simp

/-- C10: in a save-loop run, a caption file for index `n` appears in the
write trace only immediately after the image file for the same index `n` —
the state caption-present-image-absent never occurs, because every failure
in detection, decoding, or image saving skips the record before its caption
write. -/
theorem caption_only_after_image (envs : Nat → PersistEnv)
    (sel : List Record) (n : Nat) (c : String)
    (h : WriteEvent.captionFile n c ∈ (saveSelected envs sel 0).2) :
    ∃ l1 l2, (saveSelected envs sel 0).2 =
      l1 ++ WriteEvent.imageFile n :: WriteEvent.captionFile n c :: l2 :=
  saveSelected_caption_after_image envs sel 0 n c h

/-- Witness for C10 on a one-record run that writes both files. -/
theorem caption_only_after_image_witness :
    ∃ l1 l2,
      (saveSelected (fun _ => allOkEnv) [[("image", Value.vBytes [0])]] 0).2 =
        l1 ++ WriteEvent.imageFile 1 ::
          WriteEvent.captionFile 1 "No caption" :: l2 :=
  caption_only_after_image (fun _ => allOkEnv)
    [[("image", Value.vBytes [0])]] 1 "No caption" (by decide)

theorem select_eq_pmap_get (records : List Record) :
    ∀ (idxs : List Nat) (hv : ∀ i ∈ idxs, i < records.length),
      select records idxs =
        (idxs.pmap (fun i h => (⟨i, h⟩ : Fin records.length)) hv).map
          records.get := by
  intro idxs
  induction idxs with
  | nil => intro hv; rfl
  | cons i rest ih =>
    intro hv
    have hi : i < records.length := hv i (by simp)
    show List.filterMap _ (i :: rest) = _
    rw [List.filterMap_cons]
    rw [List.get?_eq_get hi]
    simp only [List.pmap, List.map_cons]
    exact congrArg (List.cons _) (ih _)

/-- C1: on a non-empty buffer, `select` returns exactly
`min(sample_size, len(records))` records — hence at most `sample_size` — all
drawn from the buffered list at pairwise distinct positions (without
replacement). -/
theorem select_min_distinct (records : List Record) (sample_size : Nat)
    (idxs : List Nat) (_hne : records ≠ [])
    (hvalid : ValidSample records (min sample_size records.length) idxs) :
    (select records idxs).length = min sample_size records.length ∧
      (select records idxs).length ≤ sample_size ∧
      (∀ x ∈ select records idxs, x ∈ records) ∧
      ∃ js : List (Fin records.length), js.Nodup ∧
        js.length = min sample_size records.length ∧
        select records idxs = js.map records.get := by
  obtain ⟨hnd, hlen, hvi⟩ := hvalid
  have hsel := select_eq_pmap_get records idxs hvi
  have hl : (select records idxs).length = min sample_size records.length := by
    rw [hsel, List.length_map, List.length_pmap, hlen]
  refine ⟨hl, ?_, ?_, ?_⟩
  · rw [hl]; exact Nat.min_le_left _ _
  · intro x hx
    rw [hsel] at hx
    rcases List.mem_map.mp hx with ⟨j, _, rfl⟩
    exact List.get_mem records j.1 j.2
  · refine ⟨idxs.pmap (fun i h => (⟨i, h⟩ : Fin records.length)) hvi, ?_, ?_, hsel⟩
    · exact List.Nodup.pmap (fun a ha b hb hab => by
        simpa using congrArg Fin.val hab) hnd
    · rw [List.length_pmap, hlen]

/-- Witness for C1 on a two-record buffer with `sample_size = 1`. -/
theorem select_min_distinct_witness :
    (select [[("a", Value.vStr "x")], [("b", Value.vStr "y")]] [1]).length =
        min 1 2 ∧
      (select [[("a", Value.vStr "x")], [("b", Value.vStr "y")]] [1]).length ≤
        1 ∧
      (∀ x ∈ select [[("a", Value.vStr "x")], [("b", Value.vStr "y")]] [1],
        x ∈ [[("a", Value.vStr "x")], [("b", Value.vStr "y")]]) ∧
      ∃ js : List (Fin ([[("a", Value.vStr "x")],
          [("b", Value.vStr "y")]] : List Record).length),
        js.Nodup ∧ js.length = min 1 2 ∧
        select [[("a", Value.vStr "x")], [("b", Value.vStr "y")]] [1] =
          js.map ([[("a", Value.vStr "x")], [("b", Value.vStr "y")]] :
            List Record).get :=
  select_min_distinct [[("a", Value.vStr "x")], [("b", Value.vStr "y")]] 1 [1]
    (by simp) ⟨by decide, by decide, by decide⟩

/-- C6: with the empty-string credential the driver logs exactly one entry —
an error — and returns before any dataset is touched: no dataset processing
attempt, no file write, zero successes. -/
theorem driver_empty_credential_aborts (envs : String → RunEnv) :
    (process_all_datasets "" envs).attempted = [] ∧
      (process_all_datasets "" envs).writes = [] ∧
      (process_all_datasets "" envs).logs =
        [⟨.error,
          "Hugging Face API key not set. Please check config.py file."⟩] ∧
      (process_all_datasets "" envs).totalSuccess = 0 :=
  ⟨rfl, rfl, rfl, rfl⟩

theorem collect_all_ok_short (stream : List FetchResult) :
    ∀ (i total : Nat), stream.length < total →
      (∀ x ∈ stream, ∃ r, x = FetchResult.ok r) →
      (collectSamples stream i total).1.length = stream.length ∧
        (⟨LogLevel.warning, "No more samples available."⟩ : LogEntry) ∈
          (collectSamples stream i total).2 := by
  induction stream with
  | nil =>
    intro i total hlt _
    cases total with
    | zero => exact absurd hlt (by omega)
    | succ t => simp [collectSamples]
  | cons x rest ih =>
    intro i total hlt hok
    rcases hok x (by simp) with ⟨r, rfl⟩
    cases total with
    | zero => exact absurd hlt (by omega)
    | succ t =>
      have hrest := ih (i + 1) t (by simpa using hlt)
        (fun y hy => hok y (by simp [hy]))
      constructor
      · simpa [collectSamples] using hrest.1
      · simp only [collectSamples]
        simp only [List.mem_append]
        exact Or.inr hrest.2

theorem collect_length_le (stream : List FetchResult) :
    ∀ (i total : Nat), (collectSamples stream i total).1.length ≤ total := by
  induction stream with
  | nil =>
    intro i total
    cases total <;> simp [collectSamples]
  | cons x rest ih =>
    intro i total
    cases total with
    | zero => simp [collectSamples]
    | succ t =>
      cases x with
      | ok r =>
        simpa [collectSamples] using Nat.succ_le_succ (ih (i + 1) t)
      | fetchError =>
        simpa [collectSamples] using le_trans (ih (i + 1) t) (Nat.le_succ t)

/-- C7: requesting 100 samples from a source yielding exactly 30 records
with no fetch failure buffers exactly 30 records and logs the
early-exhaustion warning; and in general the collection loop never buffers
more than the requested total. -/
theorem collect_stops_on_exhaustion :
    (∀ stream : List FetchResult, stream.length = 30 →
      (∀ x ∈ stream, ∃ r, x = FetchResult.ok r) →
      (collectSamples stream 0 100).1.length = 30 ∧
        (⟨LogLevel.warning, "No more samples available."⟩ : LogEntry) ∈
          (collectSamples stream 0 100).2) ∧
    ∀ (stream : List FetchResult) (i total : Nat),
      (collectSamples stream i total).1.length ≤ total := by
  constructor
  · intro stream h30 hok
    have := collect_all_ok_short stream 0 100 (by omega) hok
    exact ⟨by rw [this.1, h30], this.2⟩
  · exact fun stream i total => collect_length_le stream i total

/-- Witness for C7 on a stream of exactly 30 records. -/
theorem collect_stops_on_exhaustion_witness :
    (collectSamples (List.replicate 30 (FetchResult.ok [])) 0 100).1.length =
        30 ∧
      (⟨LogLevel.warning, "No more samples available."⟩ : LogEntry) ∈
        (collectSamples (List.replicate 30 (FetchResult.ok [])) 0 100).2 :=
  collect_stops_on_exhaustion.1 (List.replicate 30 (FetchResult.ok []))
    (by simp)
    (fun x hx => ⟨[], List.eq_of_mem_replicate hx⟩)

/-- C8: the loading block opens the `train` split; the default-split fallback
runs exactly when that load raises the split-not-found error class
(`ValueError`), logging a warning on success; any other first-load failure,
and a failing fallback, make just that dataset fail with zero saves, no
writes, and one error log; and with a non-empty credential the driver still
processes the whole dataset list, whatever each dataset does. -/
theorem load_fallback_iff_value_error :
    (∀ (s : List FetchResult) (dl : LoadResult),
      loadPhase (.ok s) dl = .useStream s false) ∧
    (∀ s : List FetchResult,
      loadPhase .valueError (.ok s) = .useStream s true) ∧
    (∀ (tl dl : LoadResult) (s : List FetchResult),
      loadPhase tl dl = .useStream s true → tl = .valueError) ∧
    (∀ dl : LoadResult, loadPhase .otherError dl = .failedOuter) ∧
    (∀ (env : RunEnv) (k t : Nat), env.trainLoad = .otherError →
      save_dataset_examples env k t =
        ⟨0, [⟨.error, "Error occurred while loading dataset"⟩], []⟩) ∧
    (∀ (env : RunEnv) (k t : Nat), env.trainLoad = .valueError →
      (∀ s, env.defaultLoad ≠ .ok s) →
      save_dataset_examples env k t =
        ⟨0, [⟨.error, "Failed to load dataset"⟩], []⟩) ∧
    (∀ (key : String) (envs : String → RunEnv), key ≠ "" →
      (process_all_datasets key envs).attempted = datasets_list) := by
  refine ⟨?_, ?_, ?_, ?_, ?_, ?_, ?_⟩
  · intro s dl; cases dl <;> rfl
  · intro s; rfl
  · intro tl dl s h
    cases tl with
    | ok s2 => cases dl <;> simp [loadPhase] at h
    | valueError => rfl
    | otherError => cases dl <;> simp [loadPhase] at h
  · intro dl; cases dl <;> rfl
  · intro env k t htr
    unfold save_dataset_examples
    have : loadPhase env.trainLoad env.defaultLoad = .failedOuter := by
      rw [htr]; cases env.defaultLoad <;> rfl
    rw [this]
  · intro env k t htr hdl
    unfold save_dataset_examples
    have : loadPhase env.trainLoad env.defaultLoad = .failedFallback := by
      rw [htr]
      cases hd : env.defaultLoad with
      | ok s => exact absurd hd (hdl s)
      | valueError => rfl
      | otherError => rfl
    rw [this]
  · intro key envs hkey
    unfold process_all_datasets
    rw [if_neg hkey]

/-- Witness for C8: a dataset whose first load fails with a non-ValueError,
inside a driver run with a non-empty credential. -/
theorem load_fallback_iff_value_error_witness :
    save_dataset_examples
        ⟨LoadResult.otherError, LoadResult.otherError, [], fun _ => allOkEnv⟩
        10 100 =
      ⟨0, [⟨LogLevel.error, "Error occurred while loading dataset"⟩], []⟩ ∧
    (process_all_datasets "token"
        (fun _ =>
          ⟨LoadResult.otherError, LoadResult.otherError, [],
            fun _ => allOkEnv⟩)).attempted = datasets_list :=
  ⟨load_fallback_iff_value_error.2.2.2.2.1
      ⟨LoadResult.otherError, LoadResult.otherError, [], fun _ => allOkEnv⟩
      10 100 rfl,
    load_fallback_iff_value_error.2.2.2.2.2.2 "token"
      (fun _ =>
        ⟨LoadResult.otherError, LoadResult.otherError, [],
          fun _ => allOkEnv⟩)
      (by simp)⟩

end DatasetCheck
